import Mathlib

/-!
Shallow embedding of the go-kit string service (`src/main.go`).

Go strings are modelled as lists of Unicode scalar values (`List Char`);
Go's `len` on a string is the UTF-8 byte length, modelled by summing
`Char.utf8Size`.  Go's `interface{}` values passed between decoders,
endpoints and encoders are modelled by the closed sum `GoValue` of the
concrete types that actually flow through the program; a failed type
assertion (a runtime panic in Go) is modelled by `Option`, with `none`
standing for the panic.
-/

namespace StringSvc

/-- A Go string, as its sequence of runes (Unicode scalar values). -/
abbrev GoStr := List Char

/-- Per-rune uppercase mapping of `strings.ToUpper` (`unicode.ToUpper`):
`c - ('a' - 'A')` on ASCII lowercase letters.  The non-ASCII Unicode case
table is summarised by the identity, matching the spec's "simple
case-fold" with no locale handling. -/
def toUpperRune (c : Char) : Char :=
  if 97 ≤ c.toNat ∧ c.toNat ≤ 122 then Char.ofNat (c.toNat - 32) else c

/-- `strings.ToUpper`: map the per-rune uppercase over the string. -/
def goToUpper (s : GoStr) : GoStr := s.map toUpperRune

/-- Go's `len` on a string: its UTF-8 byte length. -/
def goLen (s : GoStr) : Nat := (s.map Char.utf8Size).sum

/-- A Go `error` value; only its message (`Error()` string) is observable
in this program. -/
structure GoErr where
  message : GoStr
deriving DecidableEq

/-- `ErrEmpty = errors.New("empty string")` (main.go line 47). -/
def ErrEmpty : GoErr := ⟨"empty string".data⟩

/-- The field-less struct `stringService` (main.go line 33). -/
structure stringService where
deriving DecidableEq

/-- `stringService.Uppercase` (main.go lines 35-40): error on the empty
string, otherwise `strings.ToUpper(s)` with a nil error. -/
def stringService.Uppercase (_ : stringService) (s : GoStr) :
    GoStr × Option GoErr :=
  if s = [] then ([], some ErrEmpty) else (goToUpper s, none)

/-- `stringService.Count` (main.go lines 42-44): `len(s)` as a Go `int`. -/
def stringService.Count (_ : stringService) (s : GoStr) : Int :=
  (goLen s : Int)

/-- The `StringService` interface (main.go lines 28-31): a record of the
two method signatures. -/
structure StringService where
  Uppercase : GoStr → GoStr × Option GoErr
  Count : GoStr → Int

/-- The (unique) coercion of the struct to the interface. -/
def stringService.asInterface (svc : stringService) : StringService :=
  ⟨svc.Uppercase, svc.Count⟩

/-- `uppercaseRequest` (main.go lines 54-56). -/
structure uppercaseRequest where
  S : GoStr
deriving DecidableEq

/-- `uppercaseResponse` (main.go lines 58-61); `Err` carries the error
message string, `""` meaning no error (json `omitempty`). -/
structure uppercaseResponse where
  V : GoStr
  Err : GoStr
deriving DecidableEq

/-- `countRequest` (main.go lines 63-65). -/
structure countRequest where
  S : GoStr
deriving DecidableEq

/-- `countResponse` (main.go lines 67-69). -/
structure countResponse where
  V : Int
deriving DecidableEq

/-- The `interface{}` values that flow through decode/endpoint/encode:
the closed sum of the concrete request/response types of this program. -/
inductive GoValue where
  | upReq (r : uppercaseRequest)
  | cntReq (r : countRequest)
  | upResp (r : uppercaseResponse)
  | cntResp (r : countResponse)
deriving DecidableEq

/-- `makeUppercaseEndpoint` (main.go lines 78-87).  The unchecked type
assertion `request.(uppercaseRequest)` panics on any other dynamic type,
modelled by `none`; otherwise the endpoint returns the response and a nil
transport error. -/
def makeUppercaseEndpoint (svc : StringService) (request : GoValue) :
    Option (GoValue × Option GoErr) :=
  match request with
  | .upReq req =>
    match svc.Uppercase req.S with
    | (v, some err) => some (.upResp ⟨v, err.message⟩, none)
    | (v, none) => some (.upResp ⟨v, []⟩, none)
  | _ => none

/-- `makeCountEndpoint` (main.go lines 89-95); note it takes the concrete
`stringService`, not the interface. -/
def makeCountEndpoint (svc : stringService) (request : GoValue) :
    Option (GoValue × Option GoErr) :=
  match request with
  | .cntReq req => some (.cntResp ⟨svc.Count req.S⟩, none)
  | _ => none

/-- A JSON value, for the request body seen by `encoding/json` and the
response body it produces. -/
inductive Json where
  | null
  | bool (b : Bool)
  | num (n : Int)
  | str (s : GoStr)
  | arr (elems : List Json)
  | obj (fields : List (GoStr × Json))

instance : Inhabited Json := ⟨Json.null⟩

/-- An inbound HTTP request body: either not well-formed JSON, or a
well-formed JSON value. -/
inductive Body where
  | malformed
  | wellFormed (j : Json)

/-- The error classes `encoding/json` reports while decoding into a
request struct: a syntax error for malformed input, an unmarshal type
error for a well-formed value of the wrong shape. -/
inductive DecodeErr where
  | malformedInput
  | typeError
deriving DecidableEq

/-- Whether an object key selects the struct field tagged `json:"s"`.
Go matches keys to the tag exactly or case-insensitively; for the
one-letter tag that is `"s"` or `"S"`. -/
def keyMatchesS (k : GoStr) : Bool :=
  decide (k = ['s']) || decide (k = ['S'])

/-- The action of one matching object field on the decoder state
`(S, first error)`: a JSON string overwrites `S` (the last match wins),
`null` is a no-op, and any other value records an unmarshal type error —
`encoding/json` keeps the first error but continues decoding. -/
def updateS (s : GoStr) (e : Option DecodeErr) : Json → GoStr × Option DecodeErr
  | .str w => (w, e)
  | .null => (s, e)
  | .bool _ => (s, some (e.getD .typeError))
  | .num _ => (s, some (e.getD .typeError))
  | .arr _ => (s, some (e.getD .typeError))
  | .obj _ => (s, some (e.getD .typeError))

/-- Decoding the fields of a JSON object into the single string field
`S`, in order, starting from the zero value.  Fields whose key matches
the tag update the state via `updateS`; non-matching keys are ignored. -/
def unmarshalSFields :
    List (GoStr × Json) → GoStr → Option DecodeErr → GoStr × Option DecodeErr
  | [], s, e => (s, e)
  | (k, v) :: rest, s, e =>
    if keyMatchesS k then
      unmarshalSFields rest (updateS s e v).1 (updateS s e v).2
    else unmarshalSFields rest s e

/-- `json.NewDecoder(r.Body).Decode(&request)` into a struct whose only
field is the string `S` tagged `json:"s"` (both request structs have this
shape): a malformed body is a syntax error; `null` leaves the zero value;
an object is decoded field by field; any other top-level value is an
unmarshal type error. -/
def unmarshalSBody (body : Body) : Except DecodeErr GoStr :=
  match body with
  | .malformed => .error .malformedInput
  | .wellFormed .null => .ok []
  | .wellFormed (.obj fields) =>
    match unmarshalSFields fields [] none with
    | (_, some e) => .error e
    | (s, none) => .ok s
  | .wellFormed _ => .error .typeError

/-- `decodeUppercaseRequest` (main.go lines 122-128): on a decode error
return it (and no value); otherwise return the decoded request as an
`interface{}` value. -/
def decodeUppercaseRequest (body : Body) : Except DecodeErr GoValue :=
  match unmarshalSBody body with
  | .error e => .error e
  | .ok s => .ok (.upReq ⟨s⟩)

/-- `decodeCountRequest` (main.go lines 130-136). -/
def decodeCountRequest (body : Body) : Except DecodeErr GoValue :=
  match unmarshalSBody body with
  | .error e => .error e
  | .ok s => .ok (.cntReq ⟨s⟩)

/-- JSON marshalling of `uppercaseResponse`: field `v`, then field `err`
which is omitted when empty (`json:"err,omitempty"`). -/
def encodeUppercaseResponse (r : uppercaseResponse) : Json :=
  .obj ([("v".data, .str r.V)] ++
    if r.Err = [] then [] else [("err".data, .str r.Err)])

/-- `encodeResponse` (main.go lines 138-140): JSON-marshal whichever
value the endpoint returned. -/
def encodeGoValue : GoValue → Json
  | .upReq r => .obj [("s".data, .str r.S)]
  | .cntReq r => .obj [("s".data, .str r.S)]
  | .upResp r => encodeUppercaseResponse r
  | .cntResp r => .obj [("v".data, .num r.V)]

/-- Outcome of one request through the go-kit HTTP server pipeline. -/
inductive Outcome where
  | decodeFailed (e : DecodeErr)
  | panicked
  | endpointFailed (e : GoErr)
  | sent (j : Json)

/-- The go-kit `httpTransport.NewServer` pipeline for one route: decode
the body — a decode error halts processing before the endpoint — then
invoke the endpoint — a panic or a non-nil transport error halts before
encoding — then encode the response. -/
def serve (dec : Body → Except DecodeErr GoValue)
    (ep : GoValue → Option (GoValue × Option GoErr)) (body : Body) :
    Outcome :=
  match dec body with
  | .error e => .decodeFailed e
  | .ok req =>
    match ep req with
    | none => .panicked
    | some (_, some e) => .endpointFailed e
    | some (resp, none) => .sent (encodeGoValue resp)

/-- The `/uppercase` route as wired in `main` (main.go lines 102-120). -/
def serveUppercase (body : Body) : Outcome :=
  serve decodeUppercaseRequest
    (makeUppercaseEndpoint stringService.mk.asInterface) body

/-- The `/count` route as wired in `main`. -/
def serveCount (body : Body) : Outcome :=
  serve decodeCountRequest (makeCountEndpoint stringService.mk) body

/-- A JSON value is acceptable for the string field `S`: a string or
`null`. -/
def fieldValueOk : Json → Bool
  | .str _ => true
  | .null => true
  | .bool _ => false
  | .num _ => false
  | .arr _ => false
  | .obj _ => false

/-- A single object field is acceptable to the decoder: either its key
does not select `S`, or its value is a string or `null`. -/
def fieldShapeOk (kv : GoStr × Json) : Bool :=
  !keyMatchesS kv.1 || fieldValueOk kv.2

/-- The body is well-formed JSON matching the request shape shared by
both routes: `null`, or an object whose `S`-selecting fields are strings
or `null`. -/
def bodyShapeOk (body : Body) : Bool :=
  match body with
  | .malformed => false
  | .wellFormed .null => true
  | .wellFormed (.obj fields) => fields.all fieldShapeOk
  | .wellFormed _ => false

/-- One service call in an interleaved sequence of requests: which
operation, and its string argument. -/
inductive Call where
  | up (s : GoStr)
  | cnt (s : GoStr)
deriving DecidableEq

/-- The result of one call: `Uppercase`'s pair or `Count`'s int. -/
def callResult (svc : stringService) : Call → (GoStr × Option GoErr) ⊕ Int
  | .up s => .inl (svc.Uppercase s)
  | .cnt s => .inr (svc.Count s)

/-- A sequence of calls against one service value, each returning its
result; the service has no fields, so no state is threaded. -/
def runCalls (svc : stringService) (calls : List Call) :
    List ((GoStr × Option GoErr) ⊕ Int) :=
  calls.map (callResult svc)

/-! ## Helper lemmas -/

theorem goToUpper_length (s : GoStr) : (goToUpper s).length = s.length :=
  List.length_map s toUpperRune

theorem updateS_snd_eq_none (s : GoStr) (e : Option DecodeErr) (v : Json) :
    (updateS s e v).2 = none ↔ e = none ∧ fieldValueOk v = true := by
  cases v <;> simp [updateS, fieldValueOk]

theorem unmarshalSFields_snd_eq_none
    (fields : List (GoStr × Json)) (s : GoStr) (e : Option DecodeErr) :
    (unmarshalSFields fields s e).2 = none ↔
      e = none ∧ fields.all fieldShapeOk = true := by
  induction fields generalizing s e with
  | nil => simp [unmarshalSFields]
  | cons kv rest ih =>
    obtain ⟨k, v⟩ := kv
    by_cases hk : keyMatchesS k
    · rw [unmarshalSFields, if_pos hk, ih, updateS_snd_eq_none]
      simp [fieldShapeOk, hk, and_assoc]
    · rw [unmarshalSFields, if_neg hk, ih]
      simp [fieldShapeOk, hk]

theorem unmarshalSBody_error_iff (body : Body) :
    (∃ e, unmarshalSBody body = .error e) ↔ bodyShapeOk body = false := by
  cases body with
  | malformed => simp [unmarshalSBody, bodyShapeOk]
  | wellFormed j =>
    cases j with
    | null => simp [unmarshalSBody, bodyShapeOk]
    | bool b => simp [unmarshalSBody, bodyShapeOk]
    | num n => simp [unmarshalSBody, bodyShapeOk]
    | str w => simp [unmarshalSBody, bodyShapeOk]
    | arr elems => simp [unmarshalSBody, bodyShapeOk]
    | obj fields =>
      have hc := unmarshalSFields_snd_eq_none fields [] none
      rcases h : unmarshalSFields fields [] none with ⟨w, e⟩
      rw [h] at hc
      cases e with
      | none =>
        have hall : fields.all fieldShapeOk = true := (hc.mp rfl).2
        simp [unmarshalSBody, bodyShapeOk, h, hall]
      | some err =>
        have hall : fields.all fieldShapeOk = false := by
          by_contra hcon
          rw [Bool.not_eq_false] at hcon
          have : (some err : Option DecodeErr) = none := hc.mpr ⟨rfl, hcon⟩
          exact Option.some_ne_none err this
        simp [unmarshalSBody, bodyShapeOk, h, hall]

theorem serve_of_decode_error
    {dec : Body → Except DecodeErr GoValue} {body : Body} {e : DecodeErr}
    (h : dec body = .error e)
    (ep : GoValue → Option (GoValue × Option GoErr)) :
    serve dec ep body = .decodeFailed e := by
  simp [serve, h]

theorem decodeUppercaseRequest_error {body : Body} {e : DecodeErr}
    (h : unmarshalSBody body = .error e) :
    decodeUppercaseRequest body = .error e := by
  simp [decodeUppercaseRequest, h]

theorem decodeCountRequest_error {body : Body} {e : DecodeErr}
    (h : unmarshalSBody body = .error e) :
    decodeCountRequest body = .error e := by
  simp [decodeCountRequest, h]

theorem goToUpper_ne_nil {s : GoStr} (h : s ≠ []) : goToUpper s ≠ [] := by
  intro hnil
  apply h
  have hlen := congrArg List.length hnil
  rw [goToUpper_length] at hlen
  exact List.length_eq_zero.mp hlen

theorem makeUppercaseEndpoint_isSome (svc : StringService) (req : GoValue) :
    (makeUppercaseEndpoint svc req).isSome = true ↔
      ∃ r, req = GoValue.upReq r := by
  cases req with
  | upReq r =>
    constructor
    · intro _
      exact ⟨r, rfl⟩
    · intro _
      simp only [makeUppercaseEndpoint]
      split <;> simp
  | cntReq r => simp [makeUppercaseEndpoint]
  | upResp r => simp [makeUppercaseEndpoint]
  | cntResp r => simp [makeUppercaseEndpoint]

theorem makeCountEndpoint_isSome (svc : stringService) (req : GoValue) :
    (makeCountEndpoint svc req).isSome = true ↔
      ∃ r, req = GoValue.cntReq r := by
  cases req <;> simp [makeCountEndpoint]

theorem decodeUppercaseRequest_ok_shape {body : Body} {v : GoValue}
    (h : decodeUppercaseRequest body = .ok v) :
    ∃ r, v = GoValue.upReq r := by
  rw [decodeUppercaseRequest] at h
  cases hu : unmarshalSBody body with
  | error e => rw [hu] at h; cases h
  | ok s =>
    rw [hu] at h
    exact ⟨⟨s⟩, (Except.ok.injEq _ _ ▸ h).symm⟩

theorem decodeCountRequest_ok_shape {body : Body} {v : GoValue}
    (h : decodeCountRequest body = .ok v) :
    ∃ r, v = GoValue.cntReq r := by
  rw [decodeCountRequest] at h
  cases hu : unmarshalSBody body with
  | error e => rw [hu] at h; cases h
  | ok s =>
    rw [hu] at h
    exact ⟨⟨s⟩, (Except.ok.injEq _ _ ▸ h).symm⟩

theorem makeUppercaseEndpoint_concrete (r : uppercaseRequest) :
    makeUppercaseEndpoint stringService.mk.asInterface (.upReq r) =
      some (.upResp
        (if r.S = [] then ⟨[], ErrEmpty.message⟩ else ⟨goToUpper r.S, []⟩),
        none) := by
  by_cases hs : r.S = []
  · simp [makeUppercaseEndpoint, stringService.asInterface,
      stringService.Uppercase, hs]
  · simp [makeUppercaseEndpoint, stringService.asInterface,
      stringService.Uppercase, hs]

/-! ## Claim theorems -/

/-- Claim C2: `Uppercase` fails exactly on the empty string; it then
returns the empty result and the fixed error `ErrEmpty`, whose message
is `"empty string"`, and no other input yields an error. -/
theorem uppercase_error_iff_empty (svc : stringService) (s : GoStr) :
    svc.Uppercase [] = ([], some ErrEmpty) ∧
    ErrEmpty.message = "empty string".data ∧
    ((svc.Uppercase s).2 ≠ none ↔ s = []) := by
  refine ⟨by simp [stringService.Uppercase], rfl, ?_⟩
  by_cases hs : s = []
  · subst hs
    simp [stringService.Uppercase]
  · simp [stringService.Uppercase, hs]

/-- Claim C3: `Count s` is the length of `s` in encoded (UTF-8) units,
`0` on the empty string, never negative, total on every input (the
endpoint always returns a populated response with a nil error), and
`12` on `"hello, world"`. -/
theorem count_length_spec (svc : stringService) (s : GoStr) :
    svc.Count s = (goLen s : Int) ∧
    0 ≤ svc.Count s ∧
    svc.Count [] = 0 ∧
    makeCountEndpoint svc (.cntReq ⟨s⟩) =
      some (.cntResp ⟨svc.Count s⟩, none) ∧
    stringService.mk.Count "hello, world".data = 12 :=
  ⟨rfl, Int.natCast_nonneg (goLen s), rfl, rfl, by decide⟩

/-- Claim C5: the uppercase endpoint adapter never propagates a business
failure as a transport error.  For any service and request it returns
`some (response, nil transport error)`; when the service reports an
error the response's `err` field carries the error's message, when it
succeeds the response carries the value and an empty `err`; with the
wired-in service the response is exactly the error message on the empty
string and the uppercased value otherwise. -/
theorem uppercase_endpoint_no_transport_error (svc : StringService)
    (r : uppercaseRequest) :
    (∃ resp, makeUppercaseEndpoint svc (.upReq r) = some (resp, none)) ∧
    (∀ v e, svc.Uppercase r.S = (v, some e) →
      makeUppercaseEndpoint svc (.upReq r) =
        some (.upResp ⟨v, e.message⟩, none)) ∧
    (∀ v, svc.Uppercase r.S = (v, none) →
      makeUppercaseEndpoint svc (.upReq r) =
        some (.upResp ⟨v, []⟩, none)) ∧
    makeUppercaseEndpoint stringService.mk.asInterface (.upReq r) =
      some (.upResp
        (if r.S = [] then ⟨[], ErrEmpty.message⟩ else ⟨goToUpper r.S, []⟩),
        none) := by
  refine ⟨?_, ?_, ?_, makeUppercaseEndpoint_concrete r⟩
  · rcases hu : svc.Uppercase r.S with ⟨v, e⟩
    cases e with
    | none => exact ⟨.upResp ⟨v, []⟩, by simp [makeUppercaseEndpoint, hu]⟩
    | some err =>
      exact ⟨.upResp ⟨v, err.message⟩, by simp [makeUppercaseEndpoint, hu]⟩
  · intro v e hu
    simp [makeUppercaseEndpoint, hu]
  · intro v hu
    simp [makeUppercaseEndpoint, hu]

/-- Witness for C5 at the empty-string request: the business failure is
embedded in the response's `err` field with a nil transport error. -/
theorem uppercase_endpoint_no_transport_error_witness :
    stringService.mk.asInterface.Uppercase ([] : GoStr) =
      ([], some ErrEmpty) ∧
    makeUppercaseEndpoint stringService.mk.asInterface (.upReq ⟨[]⟩) =
      some (.upResp ⟨[], ErrEmpty.message⟩, none) :=
  ⟨by decide,
   (uppercase_endpoint_no_transport_error stringService.mk.asInterface
      ⟨[]⟩).2.1 [] ErrEmpty (by decide)⟩

/-- Claim C6: every response the uppercase adapter produces (with the
wired-in service) has exactly one meaningful side — on success `err` is
empty and `v` is the non-empty uppercased input, on failure `v` is empty
and `err` is non-empty. -/
theorem uppercase_response_meaningful (r : uppercaseRequest)
    (resp : uppercaseResponse) (te : Option GoErr)
    (h : makeUppercaseEndpoint stringService.mk.asInterface (.upReq r) =
      some (.upResp resp, te)) :
    (resp.Err = [] ∧ resp.V = goToUpper r.S ∧ resp.V ≠ []) ∨
    (resp.V = [] ∧ resp.Err ≠ []) := by
  rw [makeUppercaseEndpoint_concrete r] at h
  simp only [Option.some.injEq, Prod.mk.injEq, GoValue.upResp.injEq] at h
  obtain ⟨hresp, -⟩ := h
  by_cases hs : r.S = []
  · right
    rw [if_pos hs] at hresp
    rw [← hresp]
    exact ⟨rfl, by decide⟩
  · left
    rw [if_neg hs] at hresp
    rw [← hresp]
    exact ⟨rfl, rfl, goToUpper_ne_nil hs⟩

/-- Witness for C6 at the request `{s: "hi"}`. -/
theorem uppercase_response_meaningful_witness :
    makeUppercaseEndpoint stringService.mk.asInterface
        (.upReq ⟨"hi".data⟩) =
      some (.upResp ⟨"HI".data, []⟩, none) ∧
    ((⟨"HI".data, []⟩ : uppercaseResponse).Err = [] ∧
        (⟨"HI".data, []⟩ : uppercaseResponse).V = goToUpper "hi".data ∧
        (⟨"HI".data, []⟩ : uppercaseResponse).V ≠ [] ∨
      (⟨"HI".data, []⟩ : uppercaseResponse).V = [] ∧
        (⟨"HI".data, []⟩ : uppercaseResponse).Err ≠ []) :=
  ⟨by decide,
   uppercase_response_meaningful ⟨"hi".data⟩ ⟨"HI".data, []⟩ none
     (by decide)⟩

/-- Claim C7: a body that is not well-formed JSON matching the request
shape makes the decode step return a decode error and no value, and the
pipeline halts with that decode failure whatever the endpoint is — the
endpoint adapter is never invoked. -/
theorem decode_failure_halts (body : Body)
    (h : bodyShapeOk body = false) :
    ∃ e, unmarshalSBody body = .error e ∧
      decodeUppercaseRequest body = .error e ∧
      decodeCountRequest body = .error e ∧
      ∀ ep, serve decodeUppercaseRequest ep body = .decodeFailed e ∧
        serve decodeCountRequest ep body = .decodeFailed e := by
  obtain ⟨e, he⟩ := (unmarshalSBody_error_iff body).mpr h
  exact ⟨e, he, decodeUppercaseRequest_error he, decodeCountRequest_error he,
    fun ep =>
      ⟨serve_of_decode_error (decodeUppercaseRequest_error he) ep,
       serve_of_decode_error (decodeCountRequest_error he) ep⟩⟩

/-- Witness for C7 at a malformed body. -/
theorem decode_failure_halts_witness :
    bodyShapeOk Body.malformed = false ∧
    ∃ e, unmarshalSBody Body.malformed = .error e ∧
      decodeUppercaseRequest Body.malformed = .error e ∧
      decodeCountRequest Body.malformed = .error e ∧
      ∀ ep, serve decodeUppercaseRequest ep Body.malformed =
          .decodeFailed e ∧
        serve decodeCountRequest ep Body.malformed = .decodeFailed e :=
  ⟨rfl, decode_failure_halts Body.malformed rfl⟩

/-- Claim C8: the operations are pure functions of their string argument
alone: any two values of the field-less service struct are equal, and in
any two interleaved call sequences, calls with the same operation and
input yield identical results, equal to the one pure result of that
call. -/
theorem service_pure_and_deterministic (svc₁ svc₂ : stringService)
    (calls₁ calls₂ : List Call) (i₁ i₂ : Nat) (c : Call)
    (h₁ : calls₁[i₁]? = some c) (h₂ : calls₂[i₂]? = some c) :
    svc₁ = svc₂ ∧
    (runCalls svc₁ calls₁)[i₁]? = some (callResult stringService.mk c) ∧
    (runCalls svc₁ calls₁)[i₁]? = (runCalls svc₂ calls₂)[i₂]? := by
  have hsvc : svc₁ = svc₂ := by
    cases svc₁
    cases svc₂
    rfl
  have key : ∀ (svc : stringService) (calls : List Call) (i : Nat),
      calls[i]? = some c →
      (runCalls svc calls)[i]? = some (callResult stringService.mk c) := by
    intro svc calls i hi
    cases svc
    simp [runCalls, List.getElem?_map, hi]
  exact ⟨hsvc, key svc₁ calls₁ i₁ h₁,
    (key svc₁ calls₁ i₁ h₁).trans (key svc₂ calls₂ i₂ h₂).symm⟩

/-- Witness for C8: a one-call sequence evaluated at position 0. -/
theorem service_pure_and_deterministic_witness :
    ([Call.up "hi".data])[0]? = some (Call.up "hi".data) ∧
    (runCalls stringService.mk [Call.up "hi".data])[0]? =
      some (callResult stringService.mk (Call.up "hi".data)) :=
  ⟨rfl,
   (service_pure_and_deterministic stringService.mk stringService.mk
      [Call.up "hi".data] [Call.up "hi".data] 0 0 (Call.up "hi".data)
      rfl rfl).2.1⟩

/-- Claim C9: each endpoint adapter survives (returns `some`) exactly
when its opaque request has the route's concrete type, and a value
produced by the paired decode function always has that type, so the
decoded request never panics the adapter. -/
theorem endpoint_downcast_contract (svc : StringService)
    (svc₀ : stringService) (req : GoValue) (body : Body) :
    ((makeUppercaseEndpoint svc req).isSome = true ↔
      ∃ r, req = GoValue.upReq r) ∧
    ((makeCountEndpoint svc₀ req).isSome = true ↔
      ∃ r, req = GoValue.cntReq r) ∧
    (∀ v, decodeUppercaseRequest body = .ok v →
      (makeUppercaseEndpoint svc v).isSome = true) ∧
    (∀ v, decodeCountRequest body = .ok v →
      (makeCountEndpoint svc₀ v).isSome = true) := by
  refine ⟨makeUppercaseEndpoint_isSome svc req,
    makeCountEndpoint_isSome svc₀ req, ?_, ?_⟩
  · intro v hv
    exact (makeUppercaseEndpoint_isSome svc v).mpr
      (decodeUppercaseRequest_ok_shape hv)
  · intro v hv
    exact (makeCountEndpoint_isSome svc₀ v).mpr
      (decodeCountRequest_ok_shape hv)

/-- Witness for C9: the decoded empty-object request feeds each adapter
without a panic. -/
theorem endpoint_downcast_contract_witness :
    (makeUppercaseEndpoint stringService.mk.asInterface
        (.upReq ⟨[]⟩)).isSome = true ∧
    (makeCountEndpoint stringService.mk (.cntReq ⟨[]⟩)).isSome = true :=
  ⟨(endpoint_downcast_contract stringService.mk.asInterface
      stringService.mk (.upReq ⟨[]⟩)
      (.wellFormed (.obj []))).2.2.1 (.upReq ⟨[]⟩) rfl,
   (endpoint_downcast_contract stringService.mk.asInterface
      stringService.mk (.upReq ⟨[]⟩)
      (.wellFormed (.obj []))).2.2.2 (.cntReq ⟨[]⟩) rfl⟩

/-- Claim C10: the well-formed body `{}` is not a decode error — it
decodes to the empty-string request on both routes, so `/uppercase`
answers the business-tier response `{v: "", err: "empty string"}` and
`/count` answers `{v: 0}`. -/
theorem empty_object_not_decode_error :
    unmarshalSBody (.wellFormed (.obj [])) = .ok [] ∧
    decodeUppercaseRequest (.wellFormed (.obj [])) = .ok (.upReq ⟨[]⟩) ∧
    decodeCountRequest (.wellFormed (.obj [])) = .ok (.cntReq ⟨[]⟩) ∧
    serveUppercase (.wellFormed (.obj [])) =
      .sent (.obj [("v".data, .str []),
        ("err".data, .str "empty string".data)]) ∧
    serveCount (.wellFormed (.obj [])) = .sent (.obj [("v".data, .num 0)]) :=
  ⟨rfl, rfl, rfl, rfl, rfl⟩

end StringSvc
